import Mathlib

set_option maxRecDepth 8000

/-!
Verification of the statistics scripts `scripts/bioconda_basic.py` and
`scripts/bioconda_compare.py`.

The development shallowly embeds both scripts.  Effects are made explicit:
the S3 partition store is a function from partition address to an optional
data frame (`none` models any read failure, which the script skips), the
HTTP layer is an inductive `Response` describing the outcome of the single
GET request, the `condastats` subprocess is a `ProcResult`, and the file
system of pipeline B is a function from file name to optional content.
Python dictionaries that become CSV rows are embedded as association lists
so that statements about the *set of field names* of a record are
meaningful.  Machine integers do not occur (Python integers are unbounded),
so counts are `Int`/`Nat`.
-/

namespace RepoStats

/-! ## Calendar dates

`bioconda_basic.get_download_stats` does its month enumeration with
`datetime` values.  Only year/month/day matter (the time of day is shared
by both sides of every comparison the script makes), so a date is a triple.
The Gregorian rules below are those of Python's `datetime`. -/

structure Date where
  year : Nat
  month : Nat
  day : Nat
deriving DecidableEq, Repr

/-- Gregorian leap-year rule (as implemented by `datetime`). -/
def isLeap (y : Nat) : Bool :=
  (y % 4 == 0 && y % 100 != 0) || (y % 400 == 0)

/-- Number of days of month `m` of year `y`. -/
def monthLength (y m : Nat) : Nat :=
  if m = 2 then (if isLeap y then 29 else 28)
  else if m = 4 ∨ m = 6 ∨ m = 9 ∨ m = 11 then 30
  else 31

/-- A calendar-valid date (what `datetime` can hold, ignoring its year cap). -/
def Date.Valid (d : Date) : Prop :=
  1 ≤ d.year ∧ 1 ≤ d.month ∧ d.month ≤ 12 ∧ 1 ≤ d.day ∧ d.day ≤ monthLength d.year d.month

instance (d : Date) : Decidable d.Valid := by
  unfold Date.Valid; infer_instance

/-- The day before `d` (one step of `timedelta` subtraction). -/
def prevDay (d : Date) : Date :=
  if 2 ≤ d.day then ⟨d.year, d.month, d.day - 1⟩
  else if 2 ≤ d.month then ⟨d.year, d.month - 1, monthLength d.year (d.month - 1)⟩
  else ⟨d.year - 1, 12, 31⟩

/-- `d - timedelta(days = n)`: `end_date - timedelta(days=365)` in the script. -/
def subDays (d : Date) : Nat → Date
  | 0 => d
  | n + 1 => subDays (prevDay d) n

/-- `datetime` comparison `current <= end_date` (lexicographic; both operands
carry the same time of day in the script, so the date part decides). -/
def dateLe (a b : Date) : Bool :=
  a.year < b.year ||
    (a.year == b.year && (a.month < b.month || (a.month == b.month && a.day ≤ b.day)))

/-- The month-stepping branch of the loop:
`current.replace(year=current.year+1, month=1)` when `current.month == 12`,
else `current.replace(month=current.month+1)`; the day is kept (it is 1). -/
def nextMonth (d : Date) : Date :=
  if d.month = 12 then ⟨d.year + 1, 1, d.day⟩ else ⟨d.year, d.month + 1, d.day⟩

/-- Linear month index used to measure the loop. -/
def monthIdx (d : Date) : Nat := 12 * d.year + d.month

/-- `current.strftime("%m")`: the month, zero-padded to two digits. -/
def pad2 (m : Nat) : String :=
  if m < 10 then "0" ++ toString m else toString m

/-- The fixed partition-address template
`s3://anaconda-package-data/conda/monthly/{year}/{year}-{month}.parquet`. -/
def fileUrl (year month : Nat) : String :=
  "s3://anaconda-package-data/conda/monthly/" ++ toString year ++ "/" ++
    toString year ++ "-" ++ pad2 month ++ ".parquet"

/-- The `while current <= end_date` loop of `get_download_stats`, collecting
one address per month.  The loop is given as structural recursion on a fuel
that is chosen exact in `fileUrls`; `monthsLoop_guard_false` and
`monthsLoop_eq_specMonthsFrom` show that with this fuel the function agrees
with the unbounded `while` loop on every state the script reaches. -/
def monthsLoop : Nat → Date → Date → List String
  | 0, _, _ => []
  | n + 1, cur, endD =>
    if dateLe cur endD then
      fileUrl cur.year cur.month :: monthsLoop n (nextMonth cur) endD
    else []

/-- `start_date.replace(day=1)` where `start_date = end_date - timedelta(days=365)`. -/
def startDate (now : Date) : Date :=
  ⟨(subDays now 365).year, (subDays now 365).month, 1⟩

/-- The complete `file_urls` list built by `get_download_stats` before any
partition is read, for reference instant `now` (= `datetime.now()`). -/
def fileUrls (now : Date) : List String :=
  monthsLoop (monthIdx now + 1 - monthIdx (startDate now)) (startDate now) now

/-! ## The partition scan -/

/-- One row of a monthly parquet partition, restricted to the two columns the
script touches (`pkg_name` and `counts`). -/
structure Row where
  pkg_name : String
  counts : Int
deriving DecidableEq, Repr

/-- A loaded partition. -/
abbrev DataFrame := List Row

/-- Record values: Python strings, integers, and `None`.  `vnull` never
occurs in the records this code builds, which is what lets the field
non-nullity claims be stated. -/
inductive Value where
  | vs : String → Value
  | vn : Int → Value
  | vnull : Value
deriving DecidableEq, Repr

/-- The dictionary returned by `get_download_stats`. -/
structure DlResult where
  downloads : Value
  data_source : String
  note : String
deriving DecidableEq, Repr

/-- One iteration of the `for file_url in file_urls` loop.  The accumulator is
`(total_downloads, months_found)`.  `load url = none` models any exception
while reading the partition: the `except` branch skips it (`continue`). -/
def scanStep (pkg : String) (load : String → Option DataFrame)
    (acc : Int × Nat) (url : String) : Int × Nat :=
  match load url with
  | none => acc
  | some df =>
    let pkg_data := df.filter (fun r => r.pkg_name == pkg)
    if pkg_data.isEmpty then acc
    else (acc.1 + (pkg_data.map Row.counts).sum, acc.2 + 1)

/-- The whole partition loop: fold `scanStep` over the enumerated addresses. -/
def scanTotals (pkg : String) (load : String → Option DataFrame)
    (urls : List String) : Int × Nat :=
  urls.foldl (scanStep pkg load) (0, 0)

/-- `get_download_stats(package_name)` of `bioconda_basic.py`, with the
reference instant and the partition store made explicit.  The outer
`try/except` of the source catches exceptions raised before or around the
loop (date arithmetic, interpreter failures); in this pure embedding no such
exception can occur, so the `"error"`/`"N/A"` branch at the end of the
source function is unreachable and is not modelled. -/
def get_download_stats (pkg : String) (now : Date)
    (load : String → Option DataFrame) : DlResult :=
  let t := scanTotals pkg load (fileUrls now)
  if 0 < t.1 then
    ⟨Value.vn t.1, "conda_s3",
      "Last year total from " ++ toString t.2 ++ " monthly files"⟩
  else
    ⟨Value.vn 0, "conda_s3", "No download data found in last year"⟩

/-! ## Anaconda API fetch (`fetch_package_stats`)

The JSON body of a successful response is embedded in the typed shape the
happy path of the source consumes: `data.get(key, default)` on string-valued
keys is an `Option String` read with a default, and `releases` / `files` are
the two list-valued keys whose only use is `len(...)`.  A 200 body that
fails to parse (`response.json()` raising), like every other in-flight
exception, is the `Response.exc` outcome, which the source catches with its
final `except Exception` branch. -/

structure ApiData where
  releases : List Unit
  files : List Unit
  latest_version : Option String
  summary : Option String
  license : Option String
  home : Option String
  dev_url : Option String
  doc_url : Option String
  created_at : Option String
  modified_at : Option String
deriving DecidableEq, Repr

/-- An `ApiData` with every key absent (`data.get` falls back to defaults). -/
def ApiData.empty : ApiData := ⟨[], [], none, none, none, none, none, none, none, none⟩

/-- `summary.replace(",", ";")`: since the pattern is the single character
`,`, Python's `str.replace` is exactly a character map. -/
def replaceCommas (s : String) : String :=
  String.mk (s.data.map (fun c => if c = ',' then ';' else c))

/-- Outcome of the single `requests.get` call: an HTTP response with status
code and (typed) parsed body, a timeout (`requests.exceptions.Timeout`), or
any other exception (`except Exception`). -/
inductive Response where
  | http : Nat → ApiData → Response
  | timeout : Response
  | exc : String → Response

/-- A record: the Python dict, as an association list in source key order. -/
abbrev Record := List (String × Value)

/-- `fetch_package_stats(pkg_name)` of `bioconda_basic.py`.  The reference
instant and partition store are threaded through for the `get_download_stats`
call made on the 200 branch. -/
def fetch_package_stats (pkg : String) (resp : Response) (now : Date)
    (load : String → Option DataFrame) : Record :=
  match resp with
  | .http code body =>
    if code = 200 then
      let download_info := get_download_stats pkg now load
      [("package", .vs pkg),
       ("downloads", download_info.downloads),
       ("download_source", .vs download_info.data_source),
       ("download_note", .vs download_info.note),
       ("latest_version", .vs (body.latest_version.getD "N/A")),
       ("total_versions", .vn body.releases.length),
       ("total_files", .vn body.files.length),
       ("summary", .vs (replaceCommas (body.summary.getD ""))),
       ("license", .vs (body.license.getD "N/A")),
       ("home_page", .vs (body.home.getD "N/A")),
       ("dev_url", .vs (body.dev_url.getD "N/A")),
       ("doc_url", .vs (body.doc_url.getD "N/A")),
       ("created_at", .vs (body.created_at.getD "N/A")),
       ("modified_at", .vs (body.modified_at.getD "N/A")),
       ("status", .vs "success")]
    else if code = 404 then
      [("package", .vs pkg),
       ("downloads", .vs "N/A"),
       ("download_source", .vs "none"),
       ("download_note", .vs "Package not found"),
       ("latest_version", .vs "N/A"),
       ("total_versions", .vn 0),
       ("total_files", .vn 0),
       ("summary", .vs "Package not found"),
       ("license", .vs "N/A"),
       ("home_page", .vs "N/A"),
       ("dev_url", .vs "N/A"),
       ("doc_url", .vs "N/A"),
       ("created_at", .vs "N/A"),
       ("modified_at", .vs "N/A"),
       ("status", .vs "not_found")]
    else
      [("package", .vs pkg),
       ("downloads", .vs "N/A"),
       ("download_source", .vs "none"),
       ("download_note", .vs ("HTTP " ++ toString code)),
       ("latest_version", .vs "N/A"),
       ("total_versions", .vn 0),
       ("total_files", .vn 0),
       ("summary", .vs ("HTTP " ++ toString code)),
       ("license", .vs "N/A"),
       ("home_page", .vs "N/A"),
       ("dev_url", .vs "N/A"),
       ("doc_url", .vs "N/A"),
       ("created_at", .vs "N/A"),
       ("modified_at", .vs "N/A"),
       ("status", .vs "error")]
  | .timeout =>
      [("package", .vs pkg),
       ("downloads", .vs "N/A"),
       ("download_source", .vs "none"),
       ("download_note", .vs "Request timeout"),
       ("latest_version", .vs "N/A"),
       ("total_versions", .vn 0),
       ("total_files", .vn 0),
       ("summary", .vs "Request timeout"),
       ("license", .vs "N/A"),
       ("home_page", .vs "N/A"),
       ("dev_url", .vs "N/A"),
       ("doc_url", .vs "N/A"),
       ("created_at", .vs "N/A"),
       ("modified_at", .vs "N/A"),
       ("status", .vs "timeout")]
  | .exc e =>
      [("package", .vs pkg),
       ("downloads", .vs "N/A"),
       ("download_source", .vs "none"),
       ("download_note", .vs ("Error: " ++ e)),
       ("latest_version", .vs "N/A"),
       ("total_versions", .vn 0),
       ("total_files", .vn 0),
       ("summary", .vs ("Error: " ++ e)),
       ("license", .vs "N/A"),
       ("home_page", .vs "N/A"),
       ("dev_url", .vs "N/A"),
       ("doc_url", .vs "N/A"),
       ("created_at", .vs "N/A"),
       ("modified_at", .vs "N/A"),
       ("status", .vs "error")]

/-- The field names of every record, in source order. -/
def recordFields : List String :=
  ["package", "downloads", "download_source", "download_note",
   "latest_version", "total_versions", "total_files", "summary",
   "license", "home_page", "dev_url", "doc_url",
   "created_at", "modified_at", "status"]

/-! ## Input-file reader (`read_package_list`)

The file is a list of raw lines.  The comprehension
`[line.strip() for line in f if line.strip() and not line.startswith("#")]`
filters on the *raw* line and maps `strip` afterwards. -/

/-- The characters Python's default `str.strip` removes (`str.isspace` on
ASCII; the script's inputs are ASCII package-list lines). -/
def isSpaceChar (c : Char) : Bool :=
  c = ' ' || c = '\t' || c = '\n' || c = '\r' || c = '\x0b' || c = '\x0c'

/-- Python `str.strip()`: drop whitespace from both ends. -/
def pstrip (s : String) : String :=
  String.mk (((s.data.dropWhile isSpaceChar).reverse.dropWhile isSpaceChar).reverse)

/-- Python `line.startswith("#")` for the one-character prefix used here:
the first character of the raw line is `#`. -/
def startsHash (s : String) : Bool :=
  match s.data with
  | [] => false
  | c :: _ => c = '#'

/-- `read_package_list` of `bioconda_basic.py` on the lines of the file
(the `FileNotFoundError` and generic handlers call `sys.exit(1)` and return
no list, so they are outside this value-level embedding). -/
def read_package_list (lines : List String) : List String :=
  (lines.filter (fun l => pstrip l ≠ "" && !startsHash l)).map pstrip

/-! ## `condastats` invocation (`bioconda_compare.get_conda_stats`) -/

/-- Decimal digit test (`\d` on the ASCII output of `condastats`). -/
def isDigitChar (c : Char) : Bool :=
  48 ≤ c.toNat && c.toNat ≤ 57

/-- Value of a digit run, as `int(...)` computes it. -/
def digitsToNat (ds : List Char) : Nat :=
  ds.foldl (fun a c => 10 * a + (c.toNat - 48)) 0

/-- Strip an exact literal from the front (`re.escape(package_name)` makes
the package name a literal in the pattern). -/
def dropLiteral : List Char → List Char → Option (List Char)
  | [], s => some s
  | _ :: _, [] => none
  | p :: ps, c :: cs => if c = p then dropLiteral ps cs else none

/-- Match the pattern `pkg` `\s+(\d+)` anchored at the start of `s`:
the literal, then a maximal nonempty whitespace run, then a maximal nonempty
digit run (the backtracking of the greedy `\s+` cannot help, since a
whitespace character can never satisfy `\d`). -/
def matchHere (pkg s : List Char) : Option Nat :=
  match dropLiteral pkg s with
  | none => none
  | some rest =>
    let sp := rest.takeWhile isSpaceChar
    let rest2 := rest.dropWhile isSpaceChar
    if sp.isEmpty then none
    else
      let ds := rest2.takeWhile isDigitChar
      if ds.isEmpty then none
      else some (digitsToNat ds)

/-- `re.search`: try the pattern at each position, leftmost match wins. -/
def searchAux (pkg : List Char) : List Char → Option Nat
  | [] => matchHere pkg []
  | c :: cs =>
    match matchHere pkg (c :: cs) with
    | some n => some n
    | none => searchAux pkg cs

/-- `re.search(rf"{re.escape(package_name)}\s+(\d+)", output)` followed by
`int(match.group(1))`. -/
def condaSearch (pkg s : String) : Option Nat :=
  searchAux pkg.data s.data

/-- Outcome of `subprocess.run(..., check=True)`: normal completion with
captured stdout, a `CalledProcessError` (non-zero exit), or any other
exception. -/
inductive ProcResult where
  | ok : String → ProcResult
  | err : String → ProcResult
  | exc : String → ProcResult

/-- `get_conda_stats` of `bioconda_compare.py`.  Returns the integer result
together with the lines printed to `stderr`. -/
def get_conda_stats (pkg : String) (res : ProcResult) : Nat × List String :=
  match res with
  | .ok stdout =>
    let output := pstrip stdout
    match condaSearch pkg output with
    | some n => (n, [])
    | none =>
      (0, ["Warning: Could not parse output for " ++ pkg,
           "Output was: " ++ output])
  | .err e => (0, ["Error running condastats for " ++ pkg ++ ": " ++ e])
  | .exc e => (0, ["Unexpected error for " ++ pkg ++ ": " ++ e])

/-! ## Status breakdown (`main` of `bioconda_basic.py`)

`df['status'].value_counts()` is the one pandas call a claim depends on.
Its documented contract is: one entry per distinct value of the column,
with its number of occurrences, in descending order of count.  pandas does
not document the relative order of values with equal counts (it falls out
of its internal hash-table iteration); the model below uses first-appearance
order for ties, realised by a stable insertion sort over the distinct values
in first-appearance order. -/

/-- Accumulate a key, keeping the first appearance. -/
def addKey (acc : List String) (s : String) : List String :=
  if s ∈ acc then acc else acc ++ [s]

/-- The distinct values of a list, in order of first appearance. -/
def distinctFirst (l : List String) : List String :=
  l.foldl addKey []

/-- Descending-count order on `(value, count)` entries. -/
def byCountDesc (a b : String × Nat) : Prop := b.2 ≤ a.2

instance : DecidableRel byCountDesc := fun a b => Nat.decLe b.2 a.2

instance : IsTotal (String × Nat) byCountDesc :=
  ⟨fun a b => Nat.le_total b.2 a.2⟩

instance : IsTrans (String × Nat) byCountDesc :=
  ⟨fun _ _ _ h1 h2 => Nat.le_trans h2 h1⟩

/-- `series.value_counts()` over the status column. -/
def value_counts (l : List String) : List (String × Nat) :=
  List.insertionSort byCountDesc ((distinctFirst l).map (fun s => (s, l.count s)))

/-- The status-breakdown lines printed by `main`
(`print(f"  {status}: {count}")` over `value_counts().items()`). -/
def status_breakdown (statuses : List String) : List String :=
  (value_counts statuses).map (fun p => "  " ++ p.1 ++ ": " ++ toString p.2)

/-! ## Pipeline B CSV writer (`write_csv_table`) -/

/-- One `PeriodStat` row dict; its keys are the three fixed field names
`PackageName`, `2023-2024`, `2024-2025`. -/
structure CompareRow where
  name : String
  p1 : String
  p2 : String
deriving DecidableEq, Repr

/-- The header written by `writer.writeheader()` (the `csv` module
terminates lines with CRLF). -/
def csvHeader : String := "PackageName,2023-2024,2024-2025\r\n"

/-- One data line written by `writer.writerows` (the values here are package
names and decimal digit strings, which the `csv` module never quotes). -/
def csvLine (r : CompareRow) : String :=
  r.name ++ "," ++ r.p1 ++ "," ++ r.p2 ++ "\r\n"

/-- The body written after the header. -/
def csvBody (data : List CompareRow) : String :=
  String.join (data.map csvLine)

/-- `write_csv_table(data, filename)`, with the file system explicit as a
map from file name to optional content.  Returns the file system after the
call and the lines printed to `stderr`. -/
def write_csv_table (data : List CompareRow) (filename : String)
    (fs : String → Option String) : (String → Option String) × List String :=
  if data.isEmpty then
    (fs, ["No data to write"])
  else
    (fun f => if f = filename then some (csvHeader ++ csvBody data) else fs f,
     ["Results written to " ++ filename])

/-! ## Spec-side month enumeration

These definitions follow the words of the specification, for the refinement
statements about claim C1: "enumerate the ... calendar months ending at the
current month (inclusive), construct one partition address per month". -/

/-- `n` consecutive calendar months starting at `(y, m)`, one partition
address each. -/
def specMonthsFrom : Nat → Nat → Nat → List String
  | _, _, 0 => []
  | y, m, n + 1 =>
    fileUrl y m ::
      (if m = 12 then specMonthsFrom (y + 1) 1 n else specMonthsFrom y (m + 1) n)

/-- The `k` calendar months ending at the month of `now` (inclusive), one
partition address each: the spec's words for the claimed enumeration with
`k = 12`. -/
def specMonthsEndingAt (now : Date) (k : Nat) : List String :=
  specMonthsFrom ((monthIdx now - k) / 12) ((monthIdx now - k) % 12 + 1) k

/-! ## Lemmas about the month enumeration -/

lemma dateLe_iff (a b : Date) : dateLe a b = true ↔
    (a.year < b.year ∨
      (a.year = b.year ∧ (a.month < b.month ∨ (a.month = b.month ∧ a.day ≤ b.day)))) := by
  simp [dateLe, decide_eq_true_eq]

lemma monthIdx_nextMonth (d : Date) : monthIdx (nextMonth d) = monthIdx d + 1 := by
  unfold nextMonth monthIdx
  split
  · rename_i h
    simp [h]
    omega
  · simp
    omega

/-- If both months are calendar months, the month index decides the guard:
with index at most the end index the `while` guard holds. -/
lemma dateLe_true_of_idx_le (a b : Date) (ha1 : 1 ≤ a.month) (ha2 : a.month ≤ 12)
    (hb1 : 1 ≤ b.month) (hb2 : b.month ≤ 12) (had : a.day = 1) (hbd : 1 ≤ b.day)
    (h : monthIdx a ≤ monthIdx b) : dateLe a b = true := by
  rw [dateLe_iff]
  unfold monthIdx at h
  omega

/-- ... and with index past the end index the guard fails, so the exact fuel
used by `fileUrls` makes `monthsLoop` agree with the unbounded loop. -/
lemma dateLe_false_of_idx_gt (a b : Date) (ha1 : 1 ≤ a.month) (ha2 : a.month ≤ 12)
    (hb1 : 1 ≤ b.month) (hb2 : b.month ≤ 12)
    (h : monthIdx b + 1 ≤ monthIdx a) : dateLe a b = false := by
  cases hd : dateLe a b with
  | false => rfl
  | true =>
    exfalso
    have := (dateLe_iff a b).mp hd
    unfold monthIdx at h
    omega

lemma prevDay_month_bounds (d : Date) (h1 : 1 ≤ d.month) (h2 : d.month ≤ 12) :
    1 ≤ (prevDay d).month ∧ (prevDay d).month ≤ 12 := by
  unfold prevDay
  split
  · exact ⟨h1, h2⟩
  · split
    · rename_i h
      constructor <;> simp <;> omega
    · simp

lemma subDays_month_bounds : ∀ (n : Nat) (d : Date), 1 ≤ d.month → d.month ≤ 12 →
    1 ≤ (subDays d n).month ∧ (subDays d n).month ≤ 12 := by
  intro n
  induction n with
  | zero => intro d h1 h2; exact ⟨h1, h2⟩
  | succ k ih =>
    intro d h1 h2
    have h := prevDay_month_bounds d h1 h2
    exact ih (prevDay d) h.1 h.2

lemma specMonthsFrom_length : ∀ (n y m : Nat), (specMonthsFrom y m n).length = n := by
  intro n
  induction n with
  | zero => intro y m; rfl
  | succ k ih =>
    intro y m
    show (fileUrl y m :: _).length = k + 1
    simp only [List.length_cons]
    split <;> rw [ih]

/-- The `while current <= end_date` loop, run with exact fuel from a
first-of-month state, enumerates consecutive calendar months. -/
lemma monthsLoop_eq_specMonthsFrom :
    ∀ (n : Nat) (cur endD : Date), 1 ≤ cur.month → cur.month ≤ 12 → cur.day = 1 →
      1 ≤ endD.month → endD.month ≤ 12 → 1 ≤ endD.day →
      monthIdx cur + n = monthIdx endD + 1 →
      monthsLoop n cur endD = specMonthsFrom cur.year cur.month n := by
  intro n
  induction n with
  | zero => intro cur endD _ _ _ _ _ _ _; rfl
  | succ k ih =>
    intro cur endD h1 h2 h3 h4 h5 h6 hidx
    have hguard : dateLe cur endD = true := by
      apply dateLe_true_of_idx_le cur endD h1 h2 h4 h5 h3 h6
      omega
    show (if dateLe cur endD = true then
        fileUrl cur.year cur.month :: monthsLoop k (nextMonth cur) endD else []) =
      fileUrl cur.year cur.month ::
        (if cur.month = 12 then specMonthsFrom (cur.year + 1) 1 k
         else specMonthsFrom cur.year (cur.month + 1) k)
    rw [if_pos hguard]
    congr 1
    by_cases hm : cur.month = 12
    · rw [if_pos hm]
      have hnext : nextMonth cur = ⟨cur.year + 1, 1, cur.day⟩ := by
        unfold nextMonth
        rw [if_pos hm]
      rw [hnext]
      have := ih ⟨cur.year + 1, 1, cur.day⟩ endD (by simp) (by simp) (by simpa using h3)
        h4 h5 h6 (by unfold monthIdx at hidx ⊢; simp at hidx ⊢; omega)
      simpa using this
    · rw [if_neg hm]
      have hnext : nextMonth cur = ⟨cur.year, cur.month + 1, cur.day⟩ := by
        unfold nextMonth
        rw [if_neg hm]
      rw [hnext]
      have := ih ⟨cur.year, cur.month + 1, cur.day⟩ endD (by simp) (by simp; omega)
        (by simpa using h3) h4 h5 h6 (by unfold monthIdx at hidx ⊢; simp at hidx ⊢; omega)
      simpa using this

/-- Reading only the enumerated partitions: the scan result depends on the
partition store only through its values at the addresses in `fileUrls`. -/
lemma foldl_scanStep_congr (pkg : String) (load load' : String → Option DataFrame) :
    ∀ (urls : List String) (acc : Int × Nat), (∀ u ∈ urls, load u = load' u) →
      urls.foldl (scanStep pkg load) acc = urls.foldl (scanStep pkg load') acc := by
  intro urls
  induction urls with
  | nil => intro acc _; rfl
  | cons u us ih =>
    intro acc h
    have hstep : scanStep pkg load acc u = scanStep pkg load' acc u := by
      unfold scanStep
      rw [h u (List.mem_cons_self u us)]
    simp only [List.foldl_cons, hstep]
    exact ih _ (fun v hv => h v (List.mem_cons_of_mem u hv))

/-! ## Claim C1 -/

/-- The 365-day subtraction at the concrete instant used by the witnesses:
2026-10-12 minus 365 days is 2025-10-12, so the loop starts at 2025-10-01. -/
lemma startDate_concrete : startDate ⟨2026, 10, 12⟩ = ⟨2025, 10, 1⟩ := by decide

/-- The address list built at the reference instant 2026-10-12: the thirteen
months 2025-10 through 2026-10. -/
lemma fileUrls_concrete : fileUrls ⟨2026, 10, 12⟩ =
    ["s3://anaconda-package-data/conda/monthly/2025/2025-10.parquet",
     "s3://anaconda-package-data/conda/monthly/2025/2025-11.parquet",
     "s3://anaconda-package-data/conda/monthly/2025/2025-12.parquet",
     "s3://anaconda-package-data/conda/monthly/2026/2026-01.parquet",
     "s3://anaconda-package-data/conda/monthly/2026/2026-02.parquet",
     "s3://anaconda-package-data/conda/monthly/2026/2026-03.parquet",
     "s3://anaconda-package-data/conda/monthly/2026/2026-04.parquet",
     "s3://anaconda-package-data/conda/monthly/2026/2026-05.parquet",
     "s3://anaconda-package-data/conda/monthly/2026/2026-06.parquet",
     "s3://anaconda-package-data/conda/monthly/2026/2026-07.parquet",
     "s3://anaconda-package-data/conda/monthly/2026/2026-08.parquet",
     "s3://anaconda-package-data/conda/monthly/2026/2026-09.parquet",
     "s3://anaconda-package-data/conda/monthly/2026/2026-10.parquet"] := by
  unfold fileUrls
  rw [startDate_concrete]
  decide

/-- C1, counterexample.  The claim says the scanner enumerates exactly the 12
calendar months ending at the current month.  At the reference instant
2026-10-12 the enumeration is `2025-10 .. 2026-10`: thirteen partition
addresses, not the twelve months `2025-11 .. 2026-10` the claim describes. -/
theorem c1_counterexample :
    fileUrls ⟨2026, 10, 12⟩ ≠ specMonthsEndingAt ⟨2026, 10, 12⟩ 12 ∧
    (fileUrls ⟨2026, 10, 12⟩).length = 13 := by
  rw [fileUrls_concrete]
  constructor
  · decide
  · decide

/-- C1, amended.  For every valid reference instant, the scanner enumerates
the consecutive calendar months from the month containing the instant 365
days earlier through the current month — typically 13 months, not 12 — one
partition address per month from the fixed template, all constructed before
any partition is read: the scan result depends on the partition store only
at those addresses. -/
theorem c1_month_enumeration (now : Date) (hv : now.Valid) :
    fileUrls now =
      specMonthsFrom (startDate now).year (startDate now).month
        (monthIdx now + 1 - monthIdx (startDate now)) ∧
    (fileUrls now).length = monthIdx now + 1 - monthIdx (startDate now) ∧
    (∀ pkg load load', (∀ u ∈ fileUrls now, load u = load' u) →
      get_download_stats pkg now load = get_download_stats pkg now load') := by
  obtain ⟨hy, hm1, hm2, hd1, hd2⟩ := hv
  obtain ⟨s, hsEq⟩ : ∃ s, subDays now 365 = s := ⟨_, rfl⟩
  have hb := subDays_month_bounds 365 now hm1 hm2
  rw [hsEq] at hb
  have hstart : startDate now = ⟨s.year, s.month, 1⟩ := by
    unfold startDate
    rw [hsEq]
  have h1 : fileUrls now =
      specMonthsFrom (startDate now).year (startDate now).month
        (monthIdx now + 1 - monthIdx (startDate now)) := by
    unfold fileUrls
    rw [hstart]
    by_cases hle : monthIdx (⟨s.year, s.month, 1⟩ : Date) ≤ monthIdx now + 1
    · exact monthsLoop_eq_specMonthsFrom _ ⟨s.year, s.month, 1⟩ now hb.1 hb.2 rfl
        hm1 hm2 hd1 (by unfold monthIdx at hle ⊢; simp at hle ⊢; omega)
    · have h0 : monthIdx now + 1 - monthIdx (⟨s.year, s.month, 1⟩ : Date) = 0 := by
        omega
      rw [h0]
      rfl
  refine ⟨h1, ?_, ?_⟩
  · rw [h1, specMonthsFrom_length]
  · intro pkg load load' hagree
    unfold get_download_stats scanTotals
    rw [foldl_scanStep_congr pkg load load' (fileUrls now) (0, 0) hagree]

/-- C1 witness: the amended enumeration at the concrete instant 2026-10-12. -/
theorem c1_month_enumeration_witness :
    (fileUrls ⟨2026, 10, 12⟩).length =
      monthIdx ⟨2026, 10, 12⟩ + 1 - monthIdx (startDate ⟨2026, 10, 12⟩) :=
  (c1_month_enumeration ⟨2026, 10, 12⟩ (by decide)).2.1

/-! ## Claims C2 and C3: the record shape -/

/-- The downloads value reported by the scanner is always an integer, never
Python `None`. -/
lemma get_download_stats_downloads (pkg : String) (now : Date)
    (load : String → Option DataFrame) :
    ∃ k : Int, (get_download_stats pkg now load).downloads = Value.vn k := by
  unfold get_download_stats
  by_cases h : 0 < (scanTotals pkg load (fileUrls now)).1
  · exact ⟨_, by rw [if_pos h]⟩
  · exact ⟨0, by rw [if_neg h]⟩

/-- Every branch of `fetch_package_stats` builds its record with the same
fifteen keys, in the same order. -/
lemma fetch_fields_eq (pkg : String) (resp : Response) (now : Date)
    (load : String → Option DataFrame) :
    (fetch_package_stats pkg resp now load).map Prod.fst = recordFields := by
  cases resp with
  | http code body =>
    by_cases h200 : code = 200
    · subst h200
      rfl
    · by_cases h404 : code = 404
      · subst h404
        rfl
      · simp only [fetch_package_stats]
        rw [if_neg h200, if_neg h404]
        rfl
  | timeout => rfl
  | exc e => rfl

/-- The 200 branch, as an equation. -/
lemma fetch_200 (pkg : String) (body : ApiData) (now : Date)
    (load : String → Option DataFrame) :
    fetch_package_stats pkg (.http 200 body) now load =
      [("package", .vs pkg),
       ("downloads", (get_download_stats pkg now load).downloads),
       ("download_source", .vs (get_download_stats pkg now load).data_source),
       ("download_note", .vs (get_download_stats pkg now load).note),
       ("latest_version", .vs (body.latest_version.getD "N/A")),
       ("total_versions", .vn body.releases.length),
       ("total_files", .vn body.files.length),
       ("summary", .vs (replaceCommas (body.summary.getD ""))),
       ("license", .vs (body.license.getD "N/A")),
       ("home_page", .vs (body.home.getD "N/A")),
       ("dev_url", .vs (body.dev_url.getD "N/A")),
       ("doc_url", .vs (body.doc_url.getD "N/A")),
       ("created_at", .vs (body.created_at.getD "N/A")),
       ("modified_at", .vs (body.modified_at.getD "N/A")),
       ("status", .vs "success")] := rfl

/-- Claim C2 as stated: a 200 response yields a success record whose
*fourteen* fields are all present and non-null. -/
def claimC2 (r : Record) : Prop :=
  r.lookup "status" = some (Value.vs "success") ∧
  (r.map Prod.fst).length = 14 ∧
  ∀ p ∈ r, p.2 ≠ Value.vnull

/-- C2, counterexample.  The success record does not have fourteen fields:
it has fifteen (the field list of section 3 of the spec itself names
fifteen).  Concretely, for package `seqfu`, a 200 response with an empty
body and an empty partition store produce a success record with 15 keys. -/
theorem c2_counterexample :
    ¬ claimC2 (fetch_package_stats "seqfu" (.http 200 ApiData.empty)
        ⟨2026, 10, 12⟩ (fun _ => none)) := by
  intro h
  have hlen := h.2.1
  rw [fetch_fields_eq] at hlen
  exact absurd hlen (by decide)

/-- C2, amended.  For every package whose metadata request returns HTTP 200
(with the body parsed), the record has status `success` and all *fifteen*
fields are present and non-null. -/
theorem c2_success_record (pkg : String) (body : ApiData) (now : Date)
    (load : String → Option DataFrame) :
    (fetch_package_stats pkg (.http 200 body) now load).lookup "status" =
        some (Value.vs "success") ∧
    (fetch_package_stats pkg (.http 200 body) now load).map Prod.fst = recordFields ∧
    recordFields.length = 15 ∧
    ∀ p ∈ fetch_package_stats pkg (.http 200 body) now load, p.2 ≠ Value.vnull := by
  refine ⟨rfl, rfl, rfl, ?_⟩
  intro p hp
  obtain ⟨k, hk⟩ := get_download_stats_downloads pkg now load
  rw [fetch_200] at hp
  simp only [List.mem_cons, List.not_mem_nil, or_false] at hp
  rcases hp with h | h | h | h | h | h | h | h | h | h | h | h | h | h | h <;>
    subst h <;> simp [hk]

/-- C3.  For every package name and every outcome of the metadata request
(200, 404, other status, timeout, or any other failure, all of which the
source catches), `fetch_package_stats` returns a record — the embedding is a
total function, mirroring that no branch raises to the caller — and every
branch yields exactly the same field-name list. -/
theorem c3_uniform_fields (pkg : String) (resp : Response) (now : Date)
    (load : String → Option DataFrame) :
    (fetch_package_stats pkg resp now load).map Prod.fst = recordFields :=
  fetch_fields_eq pkg resp now load

/-! ## Claim C5: the 404 record -/

/-- The descriptive fields of a record: section 3 of the spec lists, besides
the key, the usage/count fields and the status, the descriptive data
`latest_version`, `summary`, `license`, the three URLs and the two
timestamps. -/
def descriptiveFields : List String :=
  ["latest_version", "summary", "license", "home_page", "dev_url", "doc_url",
   "created_at", "modified_at"]

/-- Claim C5 as stated: a 404 response yields a record with the `N/A`
sentinel in `downloads`, status `not_found`, *all* descriptive fields set to
the sentinel, and the usage fields cleared. -/
def claimC5 (r : Record) : Prop :=
  r.lookup "downloads" = some (Value.vs "N/A") ∧
  r.lookup "status" = some (Value.vs "not_found") ∧
  (∀ f ∈ descriptiveFields, r.lookup f = some (Value.vs "N/A")) ∧
  r.lookup "download_source" = some (Value.vs "none") ∧
  r.lookup "total_versions" = some (Value.vn 0) ∧
  r.lookup "total_files" = some (Value.vn 0)

/-- C5, counterexample.  On 404 the code sets the descriptive `summary`
field to `"Package not found"`, not to the `"N/A"` sentinel, so "all
descriptive fields set to the sentinel" fails at any concrete input. -/
theorem c5_counterexample :
    ¬ claimC5 (fetch_package_stats "seqfu" (.http 404 ApiData.empty)
        ⟨2026, 10, 12⟩ (fun _ => none)) := by
  intro h
  have hs := h.2.2.1 "summary" (by decide)
  exact absurd hs (by decide)

/-- C5, amended.  A 404 response yields downloads `N/A`, status `not_found`,
every descriptive field except the summary set to `N/A`, while the summary
(like the download note) reads `Package not found`, and the usage fields
cleared: source `none`, version and file counts zero. -/
theorem c5_not_found_record (pkg : String) (body : ApiData) (now : Date)
    (load : String → Option DataFrame) :
    (fetch_package_stats pkg (.http 404 body) now load).lookup "downloads" =
        some (Value.vs "N/A") ∧
    (fetch_package_stats pkg (.http 404 body) now load).lookup "status" =
        some (Value.vs "not_found") ∧
    (∀ f ∈ descriptiveFields, f ≠ "summary" →
      (fetch_package_stats pkg (.http 404 body) now load).lookup f =
        some (Value.vs "N/A")) ∧
    (fetch_package_stats pkg (.http 404 body) now load).lookup "summary" =
        some (Value.vs "Package not found") ∧
    (fetch_package_stats pkg (.http 404 body) now load).lookup "download_note" =
        some (Value.vs "Package not found") ∧
    (fetch_package_stats pkg (.http 404 body) now load).lookup "download_source" =
        some (Value.vs "none") ∧
    (fetch_package_stats pkg (.http 404 body) now load).lookup "total_versions" =
        some (Value.vn 0) ∧
    (fetch_package_stats pkg (.http 404 body) now load).lookup "total_files" =
        some (Value.vn 0) := by
  refine ⟨rfl, rfl, ?_, rfl, rfl, rfl, rfl, rfl⟩
  intro f hf hne
  fin_cases hf
  · rfl
  · exact absurd rfl hne
  · rfl
  · rfl
  · rfl
  · rfl
  · rfl
  · rfl

/-- C5 witness: the amended statement applied to a concrete 404 outcome. -/
theorem c5_not_found_record_witness :
    (fetch_package_stats "seqfu" (.http 404 ApiData.empty) ⟨2026, 10, 12⟩
      (fun _ => none)).lookup "latest_version" = some (Value.vs "N/A") :=
  (c5_not_found_record "seqfu" ApiData.empty ⟨2026, 10, 12⟩ (fun _ => none)).2.2.1
    "latest_version" (by decide) (by decide)

/-! ## Claims C4 and C8: the scanner's zero/positive total branches -/

/-- If no enumerated partition contributes a matching row (unreadable
partitions included), the fold leaves the accumulator untouched. -/
lemma foldl_scanStep_of_no_rows (pkg : String) (load : String → Option DataFrame) :
    ∀ (urls : List String) (acc : Int × Nat),
      (∀ u ∈ urls, ∀ df, load u = some df →
        df.filter (fun r => r.pkg_name == pkg) = []) →
      urls.foldl (scanStep pkg load) acc = acc := by
  intro urls
  induction urls with
  | nil => intro acc _; rfl
  | cons u us ih =>
    intro acc h
    have hstep : scanStep pkg load acc u = acc := by
      unfold scanStep
      cases hl : load u with
      | none => rfl
      | some df =>
        have hf := h u (List.mem_cons_self u us) df hl
        simp [hf]
    simp only [List.foldl_cons, hstep]
    exact ih acc (fun v hv df hdf => h v (List.mem_cons_of_mem u hv) df hdf)

/-- C4.  If the scan runs to completion and zero partitions contribute
matching rows, the scanner returns total 0 (an integer, not the `N/A`
sentinel), the non-error `conda_s3` source tag, and the
"No download data found in last year" note. -/
theorem c4_zero_partitions (pkg : String) (now : Date)
    (load : String → Option DataFrame)
    (h : ∀ u ∈ fileUrls now, ∀ df, load u = some df →
      df.filter (fun r => r.pkg_name == pkg) = []) :
    get_download_stats pkg now load =
      ⟨Value.vn 0, "conda_s3", "No download data found in last year"⟩ := by
  unfold get_download_stats scanTotals
  rw [foldl_scanStep_of_no_rows pkg load (fileUrls now) (0, 0) h]
  rfl

/-- C4 witness: the empty partition store at the instant 2026-10-12. -/
theorem c4_zero_partitions_witness :
    get_download_stats "seqfu" ⟨2026, 10, 12⟩ (fun _ => none) =
      ⟨Value.vn 0, "conda_s3", "No download data found in last year"⟩ :=
  c4_zero_partitions "seqfu" ⟨2026, 10, 12⟩ (fun _ => none)
    (fun _ _ df h => by cases h)

/-- C8.  The choice between the found-data note and the no-data note depends
only on `total_downloads > 0`: when partitions do contribute matching rows
(`months_found` positive) but the counts sum to zero, the scanner still
returns total 0 with the `conda_s3` tag and the no-data note. -/
theorem c8_note_from_total_only (pkg : String) (now : Date)
    (load : String → Option DataFrame)
    (_hpos : 0 < (scanTotals pkg load (fileUrls now)).2)
    (hzero : (scanTotals pkg load (fileUrls now)).1 = 0) :
    get_download_stats pkg now load =
      ⟨Value.vn 0, "conda_s3", "No download data found in last year"⟩ := by
  unfold get_download_stats
  simp only [hzero]
  rfl

/-- C8 witness: a store whose current-month partition holds one matching row
with count 0 — the contributing-partition counter is 1, yet the result is
the no-data record. -/
theorem c8_note_from_total_only_witness :
    get_download_stats "seqfu" ⟨2026, 10, 12⟩
      (fun u => if u = fileUrl 2026 10 then some [⟨"seqfu", 0⟩] else none) =
      ⟨Value.vn 0, "conda_s3", "No download data found in last year"⟩ :=
  c8_note_from_total_only "seqfu" ⟨2026, 10, 12⟩
    (fun u => if u = fileUrl 2026 10 then some [⟨"seqfu", 0⟩] else none)
    (by rw [scanTotals, fileUrls_concrete]; decide)
    (by rw [scanTotals, fileUrls_concrete]; decide)

/-! ## Claim C6: the condastats output parser -/

lemma dropLiteral_eq_some : ∀ (p s r : List Char), dropLiteral p s = some r → s = p ++ r := by
  intro p
  induction p with
  | nil =>
    intro s r h
    simp only [dropLiteral] at h
    simp [Option.some_inj.mp h]
  | cons q qs ih =>
    intro s r h
    cases s with
    | nil => exact absurd h (by simp [dropLiteral])
    | cons c cs =>
      simp only [dropLiteral] at h
      by_cases hc : c = q
      · rw [if_pos hc] at h
        rw [List.cons_append, ← ih cs r h, hc]
      · rw [if_neg hc] at h
        cases h

lemma dropLiteral_self_append : ∀ (p r : List Char), dropLiteral p (p ++ r) = some r := by
  intro p
  induction p with
  | nil => intro r; rfl
  | cons q qs ih =>
    intro r
    simp only [List.cons_append, dropLiteral, if_pos rfl]
    exact ih r

lemma digit_not_space {c : Char} (h : isDigitChar c = true) : isSpaceChar c = false := by
  have h1 : ¬ (c = ' ') := by rintro rfl; exact absurd h (by decide)
  have h2 : ¬ (c = '\t') := by rintro rfl; exact absurd h (by decide)
  have h3 : ¬ (c = '\n') := by rintro rfl; exact absurd h (by decide)
  have h4 : ¬ (c = '\r') := by rintro rfl; exact absurd h (by decide)
  have h5 : ¬ (c = '\x0b') := by rintro rfl; exact absurd h (by decide)
  have h6 : ¬ (c = '\x0c') := by rintro rfl; exact absurd h (by decide)
  simp [isSpaceChar, h1, h2, h3, h4, h5, h6]

lemma dropWhile_append_of_all {p : Char → Bool} :
    ∀ (ws l : List Char), (∀ c ∈ ws, p c = true) →
      List.dropWhile p (ws ++ l) = List.dropWhile p l := by
  intro ws
  induction ws with
  | nil => intro l _; rfl
  | cons w ws' ih =>
    intro l h
    rw [List.cons_append, List.dropWhile_cons_of_pos (h w (List.mem_cons_self w ws'))]
    exact ih l (fun c hc => h c (List.mem_cons_of_mem w hc))

/-- Anything `matchHere` returns is the value of a digit run that follows
the package literal and a nonempty whitespace run. -/
lemma matchHere_sound {pkg s : List Char} {n : Nat} (h : matchHere pkg s = some n) :
    ∃ ws ds post, s = pkg ++ ws ++ ds ++ post ∧
      ws ≠ [] ∧ (∀ c ∈ ws, isSpaceChar c = true) ∧
      ds ≠ [] ∧ (∀ c ∈ ds, isDigitChar c = true) ∧ n = digitsToNat ds := by
  unfold matchHere at h
  cases hdl : dropLiteral pkg s with
  | none => rw [hdl] at h; cases h
  | some rest =>
    rw [hdl] at h
    simp only [] at h
    by_cases h1 : (rest.takeWhile isSpaceChar).isEmpty = true
    · rw [if_pos h1] at h; cases h
    · rw [if_neg h1] at h
      by_cases h2 : ((rest.dropWhile isSpaceChar).takeWhile isDigitChar).isEmpty = true
      · rw [if_pos h2] at h; cases h
      · rw [if_neg h2] at h
        refine ⟨rest.takeWhile isSpaceChar,
          (rest.dropWhile isSpaceChar).takeWhile isDigitChar,
          (rest.dropWhile isSpaceChar).dropWhile isDigitChar, ?_, ?_, ?_, ?_, ?_, ?_⟩
        · rw [dropLiteral_eq_some pkg s rest hdl, List.append_assoc, List.append_assoc,
            List.takeWhile_append_dropWhile, List.takeWhile_append_dropWhile]
        · simpa using h1
        · exact fun c hc => List.mem_takeWhile_imp hc
        · simpa using h2
        · exact fun c hc => List.mem_takeWhile_imp hc
        · exact (Option.some_inj.mp h).symm

/-- `re.search` semantics, soundness direction: any integer the search
returns is the value of a digit run preceded in the string by the package
literal and nonempty whitespace. -/
lemma searchAux_sound {pkg : List Char} {n : Nat} :
    ∀ s, searchAux pkg s = some n →
      ∃ pre ws ds post, s = pre ++ pkg ++ ws ++ ds ++ post ∧
        ws ≠ [] ∧ (∀ c ∈ ws, isSpaceChar c = true) ∧
        ds ≠ [] ∧ (∀ c ∈ ds, isDigitChar c = true) ∧ n = digitsToNat ds := by
  intro s
  induction s with
  | nil =>
    intro h
    obtain ⟨ws, ds, post, heq, hws⟩ := matchHere_sound (h : matchHere pkg [] = some n)
    exact ⟨[], ws, ds, post, by simpa using heq, hws⟩
  | cons c cs ih =>
    intro h
    unfold searchAux at h
    cases hm : matchHere pkg (c :: cs) with
    | some m =>
      rw [hm] at h
      obtain ⟨ws, ds, post, heq, hrest⟩ := matchHere_sound hm
      obtain rfl : m = n := Option.some_inj.mp h
      exact ⟨[], ws, ds, post, by simpa using heq, hrest⟩
    | none =>
      rw [hm] at h
      obtain ⟨pre, ws, ds, post, heq, hrest⟩ := ih h
      exact ⟨c :: pre, ws, ds, post, by simp [heq], hrest⟩

/-- Completeness at a position: a decomposition into literal, whitespace and
digits makes `matchHere` succeed. -/
lemma matchHere_of_decomp (pkg ws ds post : List Char)
    (hws : ws ≠ []) (hwsp : ∀ c ∈ ws, isSpaceChar c = true)
    (hds : ds ≠ []) (hdsp : ∀ c ∈ ds, isDigitChar c = true) :
    ∃ m, matchHere pkg (pkg ++ ws ++ ds ++ post) = some m := by
  obtain ⟨w, ws', rfl⟩ := List.exists_cons_of_ne_nil hws
  obtain ⟨d, ds', rfl⟩ := List.exists_cons_of_ne_nil hds
  have hw : isSpaceChar w = true := hwsp w (List.mem_cons_self w ws')
  have hd : isDigitChar d = true := hdsp d (List.mem_cons_self d ds')
  have hassoc : pkg ++ (w :: ws') ++ (d :: ds') ++ post =
      pkg ++ ((w :: ws') ++ ((d :: ds') ++ post)) := by
    simp [List.append_assoc]
  rw [hassoc]
  have hdl : dropLiteral pkg (pkg ++ ((w :: ws') ++ ((d :: ds') ++ post))) =
      some ((w :: ws') ++ ((d :: ds') ++ post)) :=
    dropLiteral_self_append pkg ((w :: ws') ++ ((d :: ds') ++ post))
  have hsp : (List.takeWhile isSpaceChar ((w :: ws') ++ ((d :: ds') ++ post))).isEmpty
      = false := by
    rw [List.cons_append, List.takeWhile_cons_of_pos hw]
    rfl
  have hdw : List.dropWhile isSpaceChar ((w :: ws') ++ ((d :: ds') ++ post)) =
      d :: (ds' ++ post) := by
    rw [dropWhile_append_of_all (w :: ws') ((d :: ds') ++ post) hwsp,
      List.cons_append]
    exact List.dropWhile_cons_of_neg (by rw [digit_not_space hd]; simp)
  have hdg : (List.takeWhile isDigitChar (d :: (ds' ++ post))).isEmpty = false := by
    rw [List.takeWhile_cons_of_pos hd]
    rfl
  refine ⟨digitsToNat (List.takeWhile isDigitChar (d :: (ds' ++ post))), ?_⟩
  unfold matchHere
  rw [hdl]
  simp only []
  rw [if_neg (by rw [hsp]; decide)]
  rw [hdw]
  rw [if_neg (by rw [hdg]; decide)]

/-- Completeness: if the pattern occurs anywhere in the string, the search
returns an integer. -/
lemma searchAux_of_decomp (pkg ws ds post : List Char)
    (hws : ws ≠ []) (hwsp : ∀ c ∈ ws, isSpaceChar c = true)
    (hds : ds ≠ []) (hdsp : ∀ c ∈ ds, isDigitChar c = true) :
    ∀ pre, ∃ m, searchAux pkg (pre ++ pkg ++ ws ++ ds ++ post) = some m := by
  intro pre
  induction pre with
  | nil =>
    obtain ⟨m, hm⟩ := matchHere_of_decomp pkg ws ds post hws hwsp hds hdsp
    have hne : pkg ++ ws ++ ds ++ post ≠ [] := by
      obtain ⟨w, ws', rfl⟩ := List.exists_cons_of_ne_nil hws
      simp
    obtain ⟨c, cs, hcs⟩ := List.exists_cons_of_ne_nil hne
    refine ⟨m, ?_⟩
    rw [List.nil_append, hcs]
    unfold searchAux
    rw [hcs] at hm
    rw [hm]
  | cons c pre' ih =>
    obtain ⟨m, hm⟩ := ih
    show ∃ m, searchAux pkg (c :: (pre' ++ pkg ++ ws ++ ds ++ post)) = some m
    unfold searchAux
    cases hmh : matchHere pkg (c :: (pre' ++ pkg ++ ws ++ ds ++ post)) with
    | some k => exact ⟨k, rfl⟩
    | none => exact ⟨m, hm⟩

/-- The normal-completion branch of `get_conda_stats`, as an equation. -/
lemma get_conda_stats_ok (pkg stdout : String) :
    get_conda_stats pkg (.ok stdout) =
      (match condaSearch pkg (pstrip stdout) with
       | some n => (n, [])
       | none =>
         (0, ["Warning: Could not parse output for " ++ pkg,
              "Output was: " ++ pstrip stdout])) := rfl

/-- C6.  The external-tool invoker returns the integer matched by the
pattern "package name, whitespace, digits" in the (stripped) standard
output — e.g. 12345 for output `seqfu 12345` and package `seqfu` — and on a
non-zero exit status or a failed pattern match it prints a warning to the
error stream and returns zero; the embedding is a total function, mirroring
that no branch raises.  (`condaSearch` is tied to the declarative pattern by
`searchAux_sound` and `searchAux_of_decomp`.) -/
theorem c6_tool_invoker :
    get_conda_stats "seqfu" (.ok "seqfu 12345") = (12345, []) ∧
    (∀ pkg out n, condaSearch pkg (pstrip out) = some n →
      get_conda_stats pkg (.ok out) = (n, [])) ∧
    (∀ pkg out, condaSearch pkg (pstrip out) = none →
      (get_conda_stats pkg (.ok out)).1 = 0 ∧ (get_conda_stats pkg (.ok out)).2 ≠ []) ∧
    (∀ pkg e, (get_conda_stats pkg (.err e)).1 = 0 ∧
      (get_conda_stats pkg (.err e)).2 ≠ []) ∧
    (∀ pkg e, (get_conda_stats pkg (.exc e)).1 = 0 ∧
      (get_conda_stats pkg (.exc e)).2 ≠ []) := by
  refine ⟨by decide, ?_, ?_, ?_, ?_⟩
  · intro pkg out n h
    rw [get_conda_stats_ok, h]
  · intro pkg out h
    rw [get_conda_stats_ok, h]
    simp
  · intro pkg e
    simp [get_conda_stats]
  · intro pkg e
    simp [get_conda_stats]

/-- C6 witness: the example output, stripped, parsed; and a non-matching
output yielding zero with a warning. -/
theorem c6_tool_invoker_witness :
    get_conda_stats "seqfu" (.ok " seqfu \t 12345 extra") = (12345, []) ∧
    (get_conda_stats "seqfu" (.ok "no counts at all")).1 = 0 ∧
    (get_conda_stats "seqfu" (.ok "no counts at all")).2 ≠ [] :=
  ⟨c6_tool_invoker.2.1 "seqfu" " seqfu \t 12345 extra" 12345 (by decide),
   c6_tool_invoker.2.2.1 "seqfu" "no counts at all" (by decide)⟩

/-! ## Claim C7: the status breakdown -/

lemma mem_addKey (acc : List String) (s x : String) :
    x ∈ addKey acc s ↔ x ∈ acc ∨ x = s := by
  unfold addKey
  by_cases h : s ∈ acc
  · rw [if_pos h]
    constructor
    · exact fun hx => Or.inl hx
    · rintro (hx | rfl)
      · exact hx
      · exact h
  · rw [if_neg h]
    simp

lemma mem_foldl_addKey : ∀ (l acc : List String) (x : String),
    x ∈ l.foldl addKey acc ↔ x ∈ acc ∨ x ∈ l := by
  intro l
  induction l with
  | nil => intro acc x; simp
  | cons a l' ih =>
    intro acc x
    rw [List.foldl_cons, ih, mem_addKey]
    simp only [List.mem_cons]
    tauto

lemma nodup_addKey (acc : List String) (s : String) (h : acc.Nodup) :
    (addKey acc s).Nodup := by
  unfold addKey
  by_cases hs : s ∈ acc
  · rw [if_pos hs]
    exact h
  · rw [if_neg hs]
    rw [List.nodup_append]
    exact ⟨h, List.nodup_singleton s, by
      intro x hx hxs
      rw [List.mem_singleton] at hxs
      exact hs (hxs ▸ hx)⟩

lemma nodup_foldl_addKey : ∀ (l acc : List String), acc.Nodup →
    (l.foldl addKey acc).Nodup := by
  intro l
  induction l with
  | nil => intro acc h; exact h
  | cons a l' ih =>
    intro acc h
    rw [List.foldl_cons]
    exact ih _ (nodup_addKey acc a h)

lemma mem_distinctFirst (l : List String) (x : String) :
    x ∈ distinctFirst l ↔ x ∈ l := by
  unfold distinctFirst
  rw [mem_foldl_addKey]
  simp

lemma nodup_distinctFirst (l : List String) : (distinctFirst l).Nodup :=
  nodup_foldl_addKey l [] List.nodup_nil

lemma map_fst_map_pair (f : String → Nat) :
    ∀ l : List String, (l.map (fun s => (s, f s))).map Prod.fst = l := by
  intro l
  induction l with
  | nil => rfl
  | cons x xs ih =>
    rw [List.map_cons, List.map_cons, ih]

/-- `value_counts` is a permutation of the per-distinct-value count pairs. -/
lemma value_counts_perm (l : List String) :
    List.Perm (value_counts l) ((distinctFirst l).map (fun s => (s, l.count s))) :=
  List.perm_insertionSort byCountDesc _

/-- C7.  For every status column, the breakdown lists each distinct status
exactly once, with its number of occurrences, in descending order of count;
on the spec's example column the printed lines are `success: 2`,
`not_found: 1`, `error: 1`, in that order (ties are printed in
first-appearance order under the tie-breaking model of `value_counts`). -/
theorem c7_status_breakdown (statuses : List String) :
    ((value_counts statuses).map Prod.fst).Nodup ∧
    (∀ s : String, s ∈ (value_counts statuses).map Prod.fst ↔ s ∈ statuses) ∧
    (∀ p ∈ value_counts statuses, p.2 = statuses.count p.1) ∧
    (value_counts statuses).Pairwise (fun a b => b.2 ≤ a.2) ∧
    status_breakdown ["success", "success", "not_found", "error"] =
      ["  success: 2", "  not_found: 1", "  error: 1"] := by
  have hperm := value_counts_perm statuses
  have hmapfst : ((distinctFirst statuses).map
      (fun s => (s, statuses.count s))).map Prod.fst = distinctFirst statuses :=
    map_fst_map_pair (fun s => statuses.count s) (distinctFirst statuses)
  refine ⟨?_, ?_, ?_, ?_, by decide⟩
  · rw [(hperm.map Prod.fst).nodup_iff, hmapfst]
    exact nodup_distinctFirst statuses
  · intro s
    rw [(hperm.map Prod.fst).mem_iff, hmapfst, mem_distinctFirst]
  · intro p hp
    have hp2 := hperm.mem_iff.mp hp
    obtain ⟨s, _, rfl⟩ := List.mem_map.mp hp2
    rfl
  · exact List.sorted_insertionSort byCountDesc _

/-- C7 witness: the counts in the example breakdown. -/
theorem c7_status_breakdown_witness :
    (("success", 2) : String × Nat).2 =
      ["success", "success", "not_found", "error"].count "success" :=
  (c7_status_breakdown ["success", "success", "not_found", "error"]).2.2.1
    ("success", 2) (by decide)

/-! ## Claim C9: the raw-line comment test -/

lemma isSpaceChar_ne_hash {c : Char} (h : isSpaceChar c = true) : ¬ (c = '#') := by
  rintro rfl
  exact absurd h (by decide)

/-- A line whose stripped text begins with a character is not blank. -/
lemma pstrip_ne_empty_of_startsHash {l : String} (h : startsHash (pstrip l) = true) :
    pstrip l ≠ "" := by
  intro he
  rw [he] at h
  exact absurd h (by decide)

/-- C9.  `read_package_list` tests `startswith("#")` on the *raw* line:
a line that begins with whitespace is never treated as a comment — even when
its first non-whitespace character is `#` (that is, its stripped text starts
with `#`), its stripped text is returned as a package name; only a line
whose very first character is `#` is dropped.  Per-line behaviour composes
over the file by the third conjunct. -/
theorem c9_comment_test_on_raw_line :
    (∀ l : String, (∃ c cs, l.data = c :: cs ∧ isSpaceChar c = true) →
      startsHash (pstrip l) = true → read_package_list [l] = [pstrip l]) ∧
    (∀ l : String, startsHash l = true → read_package_list [l] = []) ∧
    (∀ a b : List String, read_package_list (a ++ b) =
      read_package_list a ++ read_package_list b) := by
  refine ⟨?_, ?_, ?_⟩
  · intro l hws hhash
    obtain ⟨c, cs, hdata, hsp⟩ := hws
    have hne : pstrip l ≠ "" := pstrip_ne_empty_of_startsHash hhash
    have hraw : startsHash l = false := by
      unfold startsHash
      rw [hdata]
      simp only [decide_eq_false_iff_not]
      exact isSpaceChar_ne_hash hsp
    unfold read_package_list
    rw [List.filter_cons]
    rw [if_pos (by simp [hne, hraw])]
    rfl
  · intro l hhash
    unfold read_package_list
    rw [List.filter_cons]
    rw [if_neg (by simp [hhash])]
    rfl
  · intro a b
    unfold read_package_list
    rw [List.filter_append, List.map_append]

/-- C9 witness: the line `" # x"` begins with whitespace, its first
non-whitespace character is `#`, and it is returned (stripped) as a package
name, while `"# y"` is dropped. -/
theorem c9_comment_test_on_raw_line_witness :
    read_package_list [" # x"] = [pstrip " # x"] ∧ read_package_list ["# y"] = [] :=
  ⟨c9_comment_test_on_raw_line.1 " # x" ⟨' ', ['#', ' ', 'x'], rfl, by decide⟩
      (by decide),
   c9_comment_test_on_raw_line.2.1 "# y" (by decide)⟩

/-! ## Claim C10: the Pipeline B CSV writer on an empty record list -/

/-- C10.  Called with an empty record list, `write_csv_table` returns with
the file system untouched (the very same map), emitting only the
"No data to write" line on the error stream; with at least one record it
writes header followed by rows to the named file. -/
theorem c10_empty_write (filename : String) (fs : String → Option String) :
    write_csv_table [] filename fs = (fs, ["No data to write"]) ∧
    (∀ data : List CompareRow, data ≠ [] →
      (write_csv_table data filename fs).1 filename =
        some (csvHeader ++ csvBody data) ∧
      (write_csv_table data filename fs).2 = ["Results written to " ++ filename]) := by
  constructor
  · rfl
  · intro data h
    unfold write_csv_table
    rw [if_neg (by simp [h])]
    exact ⟨by simp, rfl⟩

/-- C10 witness: the empty call leaves an empty file system unchanged; a
one-record call writes header plus row. -/
theorem c10_empty_write_witness :
    write_csv_table [] "conda_stats.csv" (fun _ => none) =
      ((fun _ => none), ["No data to write"]) ∧
    (write_csv_table [⟨"seqfu", "1", "2"⟩] "conda_stats.csv" (fun _ => none)).1
        "conda_stats.csv" =
      some (csvHeader ++ csvBody [⟨"seqfu", "1", "2"⟩]) :=
  ⟨(c10_empty_write "conda_stats.csv" (fun _ => none)).1,
   ((c10_empty_write "conda_stats.csv" (fun _ => none)).2
      [⟨"seqfu", "1", "2"⟩] (by simp)).1⟩

end RepoStats
